import Mathlib

/-!
Verification development for the overlay subsystem of flashbots/api-specs
(`src/scripts/overlay.ts`).

The TypeScript source is shallowly embedded: JSON documents become the
inductive `Json`, JSONPath target expressions become parsed segment lists
(`JPath`, covering the subset of the JSONPath language the overlay files
use: child access, array indexing, single-field string-equality filters),
in-place mutation of a document tree becomes functional update of the tree
held in a `Store` (a list of document trees, with list indices playing the
role of JavaScript object references, so that "returns the original
object" versus "returns a fresh clone" is expressible), and the
fallible/asynchronous network and filesystem operations become explicit
parameters (`Int → Except String Json` block feeds, `FsTree` directory
snapshots).
-/

/-- JSON value trees, as produced by `JSON.parse` / `js-yaml` in the source
(numbers restricted to integers; none of the verified code paths performs
non-integral numeric computation). -/
inductive Json where
  | null
  | bool (b : Bool)
  | num (n : Int)
  | str (s : String)
  | arr (xs : List Json)
  | obj (fields : List (String × Json))

mutual
/-- Decidable equality for `Json` (hand-written because the nested
inductive defeats the deriving handler). -/
def decEqJson : (a b : Json) → Decidable (a = b)
  | .null, .null => isTrue rfl
  | .null, .bool _ => isFalse (fun h => Json.noConfusion h)
  | .null, .num _ => isFalse (fun h => Json.noConfusion h)
  | .null, .str _ => isFalse (fun h => Json.noConfusion h)
  | .null, .arr _ => isFalse (fun h => Json.noConfusion h)
  | .null, .obj _ => isFalse (fun h => Json.noConfusion h)
  | .bool _, .null => isFalse (fun h => Json.noConfusion h)
  | .bool a, .bool b =>
      match decEq a b with
      | isTrue h => isTrue (by rw [h])
      | isFalse h => isFalse (fun hh => h (Json.bool.inj hh))
  | .bool _, .num _ => isFalse (fun h => Json.noConfusion h)
  | .bool _, .str _ => isFalse (fun h => Json.noConfusion h)
  | .bool _, .arr _ => isFalse (fun h => Json.noConfusion h)
  | .bool _, .obj _ => isFalse (fun h => Json.noConfusion h)
  | .num _, .null => isFalse (fun h => Json.noConfusion h)
  | .num _, .bool _ => isFalse (fun h => Json.noConfusion h)
  | .num a, .num b =>
      match decEq a b with
      | isTrue h => isTrue (by rw [h])
      | isFalse h => isFalse (fun hh => h (Json.num.inj hh))
  | .num _, .str _ => isFalse (fun h => Json.noConfusion h)
  | .num _, .arr _ => isFalse (fun h => Json.noConfusion h)
  | .num _, .obj _ => isFalse (fun h => Json.noConfusion h)
  | .str _, .null => isFalse (fun h => Json.noConfusion h)
  | .str _, .bool _ => isFalse (fun h => Json.noConfusion h)
  | .str _, .num _ => isFalse (fun h => Json.noConfusion h)
  | .str a, .str b =>
      match decEq a b with
      | isTrue h => isTrue (by rw [h])
      | isFalse h => isFalse (fun hh => h (Json.str.inj hh))
  | .str _, .arr _ => isFalse (fun h => Json.noConfusion h)
  | .str _, .obj _ => isFalse (fun h => Json.noConfusion h)
  | .arr _, .null => isFalse (fun h => Json.noConfusion h)
  | .arr _, .bool _ => isFalse (fun h => Json.noConfusion h)
  | .arr _, .num _ => isFalse (fun h => Json.noConfusion h)
  | .arr _, .str _ => isFalse (fun h => Json.noConfusion h)
  | .arr xs, .arr ys =>
      match decEqJsonList xs ys with
      | isTrue h => isTrue (by rw [h])
      | isFalse h => isFalse (fun hh => h (Json.arr.inj hh))
  | .arr _, .obj _ => isFalse (fun h => Json.noConfusion h)
  | .obj _, .null => isFalse (fun h => Json.noConfusion h)
  | .obj _, .bool _ => isFalse (fun h => Json.noConfusion h)
  | .obj _, .num _ => isFalse (fun h => Json.noConfusion h)
  | .obj _, .str _ => isFalse (fun h => Json.noConfusion h)
  | .obj _, .arr _ => isFalse (fun h => Json.noConfusion h)
  | .obj xs, .obj ys =>
      match decEqJsonFields xs ys with
      | isTrue h => isTrue (by rw [h])
      | isFalse h => isFalse (fun hh => h (Json.obj.inj hh))

/-- Decidable equality for lists of `Json`. -/
def decEqJsonList : (a b : List Json) → Decidable (a = b)
  | [], [] => isTrue rfl
  | [], _ :: _ => isFalse (fun h => List.noConfusion h)
  | _ :: _, [] => isFalse (fun h => List.noConfusion h)
  | x :: xs, y :: ys =>
      match decEqJson x y with
      | isTrue h1 =>
          match decEqJsonList xs ys with
          | isTrue h2 => isTrue (by rw [h1, h2])
          | isFalse h2 => isFalse (fun hh => h2 (List.cons.inj hh).2)
      | isFalse h1 => isFalse (fun hh => h1 (List.cons.inj hh).1)

/-- Decidable equality for `Json` object field lists. -/
def decEqJsonFields : (a b : List (String × Json)) → Decidable (a = b)
  | [], [] => isTrue rfl
  | [], _ :: _ => isFalse (fun h => List.noConfusion h)
  | _ :: _, [] => isFalse (fun h => List.noConfusion h)
  | (k1, v1) :: xs, (k2, v2) :: ys =>
      match decEq k1 k2 with
      | isTrue hk =>
          match decEqJson v1 v2 with
          | isTrue hv =>
              match decEqJsonFields xs ys with
              | isTrue h2 => isTrue (by rw [hk, hv, h2])
              | isFalse h2 => isFalse (fun hh => h2 (List.cons.inj hh).2)
          | isFalse hv => isFalse (fun hh => hv (congrArg Prod.snd (List.cons.inj hh).1))
      | isFalse hk => isFalse (fun hh => hk (congrArg Prod.fst (List.cons.inj hh).1))
end

instance : DecidableEq Json := decEqJson

instance {ε α : Type} [DecidableEq ε] [DecidableEq α] : DecidableEq (Except ε α) :=
  fun a b =>
    match a, b with
    | .ok x, .ok y =>
        match decEq x y with
        | isTrue h => isTrue (by rw [h])
        | isFalse h => isFalse (fun hh => h (Except.ok.inj hh))
    | .error x, .error y =>
        match decEq x y with
        | isTrue h => isTrue (by rw [h])
        | isFalse h => isFalse (fun hh => h (Except.error.inj hh))
    | .ok _, .error _ => isFalse (fun hh => Except.noConfusion hh)
    | .error _, .ok _ => isFalse (fun hh => Except.noConfusion hh)

/-- Field lookup in a JSON object (JavaScript property read `obj[k]`;
`none` models `undefined`). -/
def lookupField : List (String × Json) → String → Option Json
  | [], _ => none
  | (k', v) :: rest, k => if k' = k then some v else lookupField rest k

/-- Property write `obj[k] = v` on a JSON object: replaces the value of an
existing key in place, otherwise appends the key at the end (JavaScript
property insertion order). -/
def setField : List (String × Json) → String → Json → List (String × Json)
  | [], k, v => [(k, v)]
  | (k', v') :: rest, k, v =>
      if k' = k then (k, v) :: rest else (k', v') :: setField rest k v

/-- Property deletion `delete obj[k]` (JavaScript objects have unique
keys, so dropping every entry with key `k` is equivalent). -/
def removeField (fs : List (String × Json)) (k : String) : List (String × Json) :=
  fs.filter (fun p => p.1 ≠ k)

/-- `Array.prototype.splice(i, 1)`: drop the element at index `i`,
shifting every later element down by one; out-of-range indices are a
no-op, as in JavaScript. -/
def spliceRemove : List Json → Nat → List Json
  | [], _ => []
  | _ :: xs, 0 => xs
  | x :: xs, n + 1 => x :: spliceRemove xs n

/-- JavaScript truthiness of a JSON value (`undefined` is handled by the
`Option` layer where it can occur). -/
def jsTruthy : Json → Bool
  | .null => false
  | .bool b => b
  | .num n => n ≠ 0
  | .str s => s ≠ ""
  | .arr _ => true
  | .obj _ => true

/-- Property read `j.k` on an arbitrary JSON value: objects look the key
up, everything else yields `undefined` (`none`). -/
def jsonGet (j : Json) (k : String) : Option Json :=
  match j with
  | .obj fs => lookupField fs k
  | _ => none

/-- The nullish-coalescing operator `v ?? d` applied to a possibly-absent
JSON value (`none` = `undefined`). -/
def jsOrElse (v : Option Json) (d : Json) : Json :=
  match v with
  | some .null => d
  | none => d
  | some x => x

/-- Truthiness of a possibly-absent JSON value (`undefined` is falsy). -/
def jsOptTruthy (v : Option Json) : Bool :=
  match v with
  | some x => jsTruthy x
  | none => false

/-- A key inside a parent container, as reported by the JSONPath library's
`parentProperty`: a string property for objects, a numeric index for
arrays. -/
inductive JKey where
  | key (s : String)
  | idx (n : Nat)
  deriving DecidableEq

/-- `Number(parentProperty)` as used by `applyAction` before `splice` /
array assignment (string keys never reach the array branches for the path
forms the overlays use; `Number` of a non-numeric string would give `NaN`,
which `splice` coerces to 0). -/
def jsKeyToNat : JKey → Nat
  | .idx n => n
  | .key s => s.toNat?.getD 0

/-- A `JKey` used as an object property name (JavaScript coerces numeric
keys to their decimal string). -/
def jsKeyToString : JKey → String
  | .key s => s
  | .idx n => toString n

/-- One segment of a JSONPath target expression, covering the subset of
the `jsonpath-plus` language that the repository's overlay targets use:
`.name` child access, `[i]` array indexing, and `[?(@.f=='lit')]`
string-equality filtering over array elements. -/
inductive JSeg where
  | child (s : String)
  | index (n : Nat)
  | filterEq (field : String) (lit : String)
  deriving DecidableEq

/-- A parsed JSONPath target expression (the segments after `$`). -/
abbrev JPath := List JSeg

/-- An overlay action (`OverlayAction` in the source): a target path plus
exactly one of `set`, `merge`, `remove: true`. -/
inductive OverlayAction where
  | set (target : JPath) (value : Json)
  | merge (target : JPath) (fields : List (String × Json))
  | remove (target : JPath)
  deriving DecidableEq

/-- The target of an overlay action. -/
def OverlayAction.target : OverlayAction → JPath
  | .set t _ => t
  | .merge t _ => t
  | .remove t => t

/-- The distinct exceptions thrown by `selectNodes` / `applyAction`:
`JSONPath ... did not match anything`, `Cannot mutate root node`,
`Cannot merge object into array`. -/
inductive OverlayError where
  | noMatch (target : JPath)
  | mutateRoot (target : JPath)
  | mergeIntoArray (target : JPath)
  deriving DecidableEq

/-- Evaluate one path segment at a node, returning the selected children
as (key within this node, child value) pairs, in document order. -/
def evalSegAt (node : Json) (seg : JSeg) : List (JKey × Json) :=
  match seg with
  | .child s =>
      match node with
      | .obj fs =>
          match lookupField fs s with
          | some v => [(.key s, v)]
          | none => []
      | _ => []
  | .index n =>
      match node with
      | .arr xs =>
          match xs.get? n with
          | some v => [(.idx n, v)]
          | none => []
      | _ => []
  | .filterEq f lit =>
      match node with
      | .arr xs =>
          (xs.enum).filterMap (fun p =>
            match p.2 with
            | .obj fs =>
                if lookupField fs f = some (.str lit) then some (.idx p.1, p.2)
                else none
            | _ => none)
      | _ => []

/-- Evaluate a path at a node, returning every matching location as (key
list from the node down, matched value). -/
def evalPath (node : Json) : JPath → List (List JKey × Json)
  | [] => [([], node)]
  | seg :: rest =>
      (evalSegAt node seg).flatMap (fun kv =>
        (evalPath kv.2 rest).map (fun lv => (kv.1 :: lv.1, lv.2)))

/-- A resolved match, as the JSONPath library reports it with
`resultType: "all"`: a handle on the immediate parent container (its
location in the document plus the key within it; `none` for the document
root, whose `parent` is `null`) together with the matched value. -/
structure JsonPathMatch where
  parent : Option (List JKey × JKey)
  value : Json
  deriving DecidableEq

/-- Split a non-empty location into the parent location and the final
key. -/
def splitParent : List JKey → Option (List JKey × JKey)
  | [] => none
  | k :: ks =>
      match splitParent ks with
      | none => some ([], k)
      | some (p, last) => some (k :: p, last)

/-- `selectNodes` (source lines 60-72): resolve a target expression,
failing with the unmatched-path error when it selects zero locations. -/
def selectNodes (doc : Json) (path : JPath) : Except OverlayError (List JsonPathMatch) :=
  let results := (evalPath doc path).map (fun lv => JsonPathMatch.mk (splitParent lv.1) lv.2)
  if results.isEmpty then .error (.noMatch path) else .ok results

/-- Read the node at a key-list location. -/
def getAtPath : Json → List JKey → Option Json
  | j, [] => some j
  | j, k :: ks =>
      match j, k with
      | .obj fs, .key s =>
          match lookupField fs s with
          | some v => getAtPath v ks
          | none => none
      | .arr xs, .idx n =>
          match xs.get? n with
          | some v => getAtPath v ks
          | none => none
      | _, _ => none

/-- Replace the node at a key-list location (identity when the location
does not resolve). -/
def setAtPath : Json → List JKey → Json → Json
  | _, [], v => v
  | j, k :: ks, v =>
      match j, k with
      | .obj fs, .key s =>
          match lookupField fs s with
          | some cur => .obj (setField fs s (setAtPath cur ks v))
          | none => .obj fs
      | .arr xs, .idx n =>
          match xs.get? n with
          | some cur => .arr (xs.set n (setAtPath cur ks v))
          | none => .arr xs
      | other, _ => other

/-- The spread base `(typeof current === "object" && current ? current : {})`
used by the merge branch of `applyAction`: an object contributes its
fields, an array is spread as index-keyed fields, and `null`, absent
values and primitives all contribute nothing. -/
def currentSpreadBase : Option Json → List (String × Json)
  | some (.obj fs) => fs
  | some (.arr xs) => (xs.enum).map (fun p => (toString p.1, p.2))
  | _ => []

/-- Object spread `{...base, ...add}`: start from `base` and write each
`add` entry in order (later entries win on key collision). -/
def spreadMerge (base add : List (String × Json)) : List (String × Json) :=
  add.foldl (fun acc kv => setField acc kv.1 kv.2) base

/-- The mutation of the parent container performed by `applyAction`
(source lines 81-107) once the root check has passed: `remove` splices
arrays / deletes object keys, `merge` rejects array parents and
shallow-merges into the slot, `set` assigns the slot. Assignments to a
primitive parent are no-ops, as property writes on primitives are in
JavaScript (unreachable for matches produced by `selectNodes`). -/
def mutateParent (parent : Json) (key : JKey) (a : OverlayAction) : Except OverlayError Json :=
  match a with
  | .remove _ =>
      match parent with
      | .arr xs => .ok (.arr (spliceRemove xs (jsKeyToNat key)))
      | .obj fs => .ok (.obj (removeField fs (jsKeyToString key)))
      | other => .ok other
  | .merge tgt mfields =>
      match parent with
      | .arr _ => .error (.mergeIntoArray tgt)
      | .obj fs =>
          let current := lookupField fs (jsKeyToString key)
          .ok (.obj (setField fs (jsKeyToString key)
            (.obj (spreadMerge (currentSpreadBase current) mfields))))
      | other => .ok other
  | .set _ v =>
      match parent with
      | .arr xs => .ok (.arr (xs.set (jsKeyToNat key) v))
      | .obj fs => .ok (.obj (setField fs (jsKeyToString key) v))
      | other => .ok other

/-- `applyAction` (source lines 74-107) on a whole document: root matches
are rejected, otherwise the parent container is mutated at its recorded
location. A parent that an earlier mutation detached from the tree is
mutated invisibly (the JavaScript reference still exists but is no longer
reachable from the document), so the document is returned unchanged. -/
def applyAction (doc : Json) (m : JsonPathMatch) (a : OverlayAction) : Except OverlayError Json :=
  match m.parent with
  | none => .error (.mutateRoot a.target)
  | some (ppath, key) =>
      match getAtPath doc ppath with
      | none => .ok doc
      | some parent => (mutateParent parent key a).map (fun p2 => setAtPath doc ppath p2)

/-- The inner loop of `applyJsonPathOverlay`: mutate each match in turn.
A thrown error propagates, leaving the mutations already performed in
place (the pair carries the document state alongside the error). -/
def applyMatches : Json → List JsonPathMatch → OverlayAction → Json × Option OverlayError
  | doc, [], _ => (doc, none)
  | doc, m :: ms, a =>
      match applyAction doc m a with
      | .error e => (doc, some e)
      | .ok doc2 => applyMatches doc2 ms a

/-- The action loop of `applyJsonPathOverlay` (source lines 110-115):
resolve each action's target against the current document state and apply
it to every match; the first thrown error aborts the loop with all
earlier mutations kept. -/
def applyActions : Json → List OverlayAction → Json × Option OverlayError
  | doc, [] => (doc, none)
  | doc, a :: rest =>
      match selectNodes doc a.target with
      | .error e => (doc, some e)
      | .ok ms =>
          match applyMatches doc ms a with
          | (doc2, some e) => (doc2, some e)
          | (doc2, none) => applyActions doc2 rest

/-- A heap of document trees; list indices play the role of JavaScript
object references, so that "the same object" and "a fresh object" are
distinguishable. -/
structure Store where
  docs : List Json
  deriving DecidableEq

/-- `applyJsonPathOverlay` (source lines 109-117): mutates the document
behind reference `r` in place and returns that same reference (the
function performs no copy). -/
def applyJsonPathOverlay (st : Store) (r : Nat) (actions : List OverlayAction) :
    Store × Nat × Option OverlayError :=
  let doc := st.docs.getD r Json.null
  let (doc2, err) := applyActions doc actions
  (⟨st.docs.set r doc2⟩, r, err)

/-- The apply path inside `applyExampleOverlays` (source lines 183-188):
with zero actions the original document reference is returned untouched;
otherwise the document is deep-copied (`JSON.parse(JSON.stringify(...))`,
a fresh reference) and `applyJsonPathOverlay` runs on the clone. -/
def applyExampleOverlaysApply (st : Store) (r : Nat) (actions : List OverlayAction) :
    Store × Nat × Option OverlayError :=
  if actions.isEmpty then (st, r, none)
  else
    let doc := st.docs.getD r Json.null
    let st2 : Store := ⟨st.docs ++ [doc]⟩
    applyJsonPathOverlay st2 st.docs.length actions

/-- `String.prototype.trim()`, over the character list (the built-in
`String.trim` of this Lean version does not reduce in the kernel). -/
def jsTrim (s : String) : String :=
  String.mk (((s.data.dropWhile Char.isWhitespace).reverse.dropWhile Char.isWhitespace).reverse)

/-- Value of one digit character, accepting `0-9`, `a-f`, `A-F`. -/
def hexDigitVal? (c : Char) : Option Nat :=
  if '0' ≤ c ∧ c ≤ '9' then some (c.toNat - '0'.toNat)
  else if 'a' ≤ c ∧ c ≤ 'f' then some (c.toNat - 'a'.toNat + 10)
  else if 'A' ≤ c ∧ c ≤ 'F' then some (c.toNat - 'A'.toNat + 10)
  else none

/-- Parse a digit string in the given base, rejecting any character that
is not a digit below the base. -/
def parseDigitsBase (base : Nat) : List Char → Nat → Option Nat
  | [], acc => some acc
  | c :: cs, acc =>
      match hexDigitVal? c with
      | some d => if d < base then parseDigitsBase base cs (acc * base + d) else none
      | none => none

/-- Parse a non-empty digit string in the given base. -/
def parseDigitsNE (base : Nat) (cs : List Char) : Option Nat :=
  match cs with
  | [] => none
  | _ => parseDigitsBase base cs 0

/-- The `BigInt(string)` constructor on an already-trimmed character
list: empty means `0n`, `0x`/`0o`/`0b` introduce hexadecimal / octal /
binary digit strings (no sign allowed), a sign is allowed only before
decimal digits, and anything else throws (`none`). -/
def jsBigIntChars : List Char → Option Int
  | [] => some 0
  | '0' :: 'x' :: rest => (parseDigitsNE 16 rest).map Int.ofNat
  | '0' :: 'X' :: rest => (parseDigitsNE 16 rest).map Int.ofNat
  | '0' :: 'o' :: rest => (parseDigitsNE 8 rest).map Int.ofNat
  | '0' :: 'O' :: rest => (parseDigitsNE 8 rest).map Int.ofNat
  | '0' :: 'b' :: rest => (parseDigitsNE 2 rest).map Int.ofNat
  | '0' :: 'B' :: rest => (parseDigitsNE 2 rest).map Int.ofNat
  | '-' :: rest => (parseDigitsNE 10 rest).map (fun n => -(Int.ofNat n))
  | '+' :: rest => (parseDigitsNE 10 rest).map Int.ofNat
  | cs => (parseDigitsNE 10 cs).map Int.ofNat

/-- `BigInt(value)` on a string (the constructor trims its input). -/
def jsBigInt? (s : String) : Option Int :=
  jsBigIntChars (jsTrim s).data

/-- `normalizeChainId` (source lines 28-39): trim, reject empty, then
best-effort `BigInt(trimmed).toString(10)`, falling back to the trimmed
raw string when the conversion throws. -/
def normalizeChainId (value : String) : Except String String :=
  let trimmed := jsTrim value
  if trimmed = "" then .error "Chain ID string cannot be empty"
  else
    match jsBigIntChars trimmed.data with
    | some n => .ok (toString n)
    | none => .ok trimmed

/-- The `error` member of a JSON-RPC response payload. -/
structure JsonRpcError where
  code : Int
  message : String
  errData : Option Json
  deriving DecidableEq

/-- A JSON-RPC response payload as `jsonRpcRequest` inspects it: `none`
in `result` models an absent or `undefined` member (a JSON `null` result
is `some Json.null`, which the source returns rather than rejecting), and
`none` in `error` models an absent or otherwise falsy `error` member. -/
structure JsonRpcPayload where
  result : Option Json
  error : Option JsonRpcError
  deriving DecidableEq

/-- The HTTP exchange observed by `jsonRpcRequest`: `ok` is the fetch
`response.ok` flag (status in 200-299) and `payload` the parsed body.
The request side (url, method, params, id) does not influence the control
flow being verified and is not modelled; error messages abbreviate the
interpolated url/method/stringified data. -/
structure HttpResponse where
  ok : Bool
  status : Nat
  statusText : String
  payload : JsonRpcPayload
  deriving DecidableEq

/-- `jsonRpcRequest` (source lines 191-220): non-2xx status fails, an
`error` member fails, a missing (`undefined`) `result` fails, and only a
present `result` is returned. -/
def jsonRpcRequest (resp : HttpResponse) : Except String Json :=
  if !resp.ok then
    .error ("RPC request failed with status " ++ toString resp.status ++ ": " ++ resp.statusText)
  else
    match resp.payload.error with
    | some e => .error ("RPC error (" ++ toString e.code ++ ") " ++ e.message)
    | none =>
        match resp.payload.result with
        | none => .error "RPC response missing result"
        | some r => .ok r

/-- `resolveOverlayChainId` (source lines 41-58): no (or empty, hence
falsy) url yields `undefined`; otherwise the chain-id query runs under a
catch-all handler, so a failed request, a non-string result (whose
`.trim()` would throw a `TypeError`), or a `normalizeChainId` throw all
degrade to `undefined` (`none`) instead of propagating. -/
def resolveOverlayChainId (rpcUrl : Option String) (resp : HttpResponse) : Option String :=
  match rpcUrl with
  | none => none
  | some u =>
      if u = "" then none
      else
        match jsonRpcRequest resp with
        | .error _ => none
        | .ok (.str raw) =>
            match normalizeChainId raw with
            | .ok c => some c
            | .error _ => none
        | .ok _ => none

/-- The action-collection path of `applyExampleOverlays` (source lines
173-181): global overlay actions first, then — only when the resolved
chain id is truthy — the actions of the chain-scoped subdirectory. -/
def collectOverlayActions (globalActions : List OverlayAction)
    (chainActions : String → List OverlayAction) (chainId : Option String) :
    List OverlayAction :=
  globalActions ++
    (match chainId with
     | some c => if c = "" then [] else chainActions c
     | none => [])

mutual
/-- A snapshot of a directory subtree as `readdir` exposes it: the
directory is absent (`readdir` raises ENOENT), raises some other
filesystem error, or lists its entries. -/
inductive FsTree where
  | missing
  | errored (code : String)
  | present (entries : List FsEntry)

/-- One directory entry: a regular file (carrying the
`readFile`-then-`parseOverlayFile` outcome, since JSON/YAML text parsing
belongs to external libraries — `parseOverlayFile` already normalizes a
single action object to a one-element list), a subdirectory, or an entry
that is neither a file nor a directory. -/
inductive FsEntry where
  | file (name : String) (parsed : Except String (List OverlayAction))
  | subdir (name : String) (tree : FsTree)
  | special (name : String)
end

/-- `entry.name.startsWith(".")`. -/
def isHiddenName (name : String) : Bool :=
  match name.data with
  | '.' :: _ => true
  | _ => false

/-- `String.prototype.split(sep)` over characters. -/
def splitOnChar (c : Char) : List Char → List (List Char)
  | [] => [[]]
  | x :: xs =>
      let r := splitOnChar c xs
      if x = c then [] :: r
      else
        match r with
        | [] => [[x]]
        | y :: ys => (x :: y) :: ys

/-- `name.split(".").pop()?.toLowerCase()`: the lower-cased final
dot-separated component of a file name (`split` never returns an empty
array, so `pop` always yields a string, possibly empty). -/
def lowerExt (name : String) : String :=
  match (splitOnChar '.' name.data).getLast? with
  | some cs => String.mk (cs.map Char.toLower)
  | none => ""

mutual
/-- `loadOverlayActions` (source lines 128-167) over an `FsTree`
snapshot: ENOENT yields an empty list, any other readdir error
propagates, and entries are folded in enumeration order — hidden names
skipped, subdirectories entered only in recursive mode, non-files
skipped, files parsed only for the `json`/`yaml`/`yml` extensions, parse
and read errors propagating. -/
def loadOverlayActions : FsTree → Bool → Except String (List OverlayAction)
  | .missing, _ => .ok []
  | .errored code, _ => .error code
  | .present entries, recursive => loadFromEntries entries recursive

/-- The entry loop of `loadOverlayActions`. -/
def loadFromEntries : List FsEntry → Bool → Except String (List OverlayAction)
  | [], _ => .ok []
  | .file name parsed :: rest, recursive =>
      if isHiddenName name then loadFromEntries rest recursive
      else
        let ext := lowerExt name
        if ext = "" ∨ ¬(ext = "json" ∨ ext = "yaml" ∨ ext = "yml") then
          loadFromEntries rest recursive
        else
          match parsed with
          | .error e => .error e
          | .ok acts => (loadFromEntries rest recursive).map (fun more => acts ++ more)
  | .subdir name tree :: rest, recursive =>
      if isHiddenName name then loadFromEntries rest recursive
      else if recursive then
        match loadOverlayActions tree true with
        | .error e => .error e
        | .ok acts => (loadFromEntries rest recursive).map (fun more => acts ++ more)
      else loadFromEntries rest recursive
  | .special _ :: rest, recursive => loadFromEntries rest recursive
end

/-- `` `0x${current.toString(16)}` `` for the non-negative block heights
the search loops produce. -/
def candidateHex (current : Int) : String :=
  "0x" ++ String.mk (Nat.toDigits 16 current.toNat)

/-- `Array.isArray(block?.transactions) ? block.transactions : []`. -/
def blockTxs (block : Json) : List Json :=
  match jsonGet block "transactions" with
  | some (.arr l) => l
  | _ => []

/-- Whether one fetched block satisfies `if (block && transactions.length)`
(a failed fetch never does — it propagates instead). -/
def blockHit (r : Except String Json) : Bool :=
  match r with
  | .ok b => jsTruthy b && !(blockTxs b).isEmpty
  | .error _ => false

/-- The bounded backward walk of `findBlockWithTransactions` (source
lines 311-325): at most `fuel` iterations, stopping below height 0;
`.ok none` is falling out of the loop (exhaustion / negative height),
which the wrapper turns into the hard failure. -/
def findBWTLoop (getBlock : Int → Except String Json) :
    Int → Nat → Except String (Option (Json × Json))
  | _, 0 => .ok none
  | current, fuel + 1 =>
      if current < 0 then .ok none
      else
        match getBlock current with
        | .error e => .error e
        | .ok block =>
            if jsTruthy block && !(blockTxs block).isEmpty then
              .ok (some (jsOrElse (jsonGet block "number") (.str (candidateHex current)), block))
            else findBWTLoop getBlock (current - 1) fuel

/-- `findBlockWithTransactions` (source lines 306-327): parse the
starting height (`hexToBigInt` throws on an unparsable string), walk
backward up to 64 blocks, and fail hard when no block with transactions
is found within the bound. -/
def findBlockWithTransactions (getBlock : Int → Except String Json) (startBlock : String) :
    Except String (Json × Json) :=
  match jsBigInt? startBlock with
  | none => .error ("Invalid hex value: " ++ startBlock)
  | some n =>
      match findBWTLoop getBlock n 64 with
      | .error e => .error e
      | .ok (some r) => .ok r
      | .ok none => .error ("Failed to find block with transactions near " ++ startBlock)

/-- `typeof tx === "string"`. -/
def isStrJson : Json → Bool
  | .str _ => true
  | _ => false

/-- `extractTransactionHash` (source lines 387-394): the first
string-typed entry of the block's transaction list, failing when there is
none. -/
def extractTransactionHash (block : Json) : Except String String :=
  match (blockTxs block).find? isStrJson with
  | some (.str h) => .ok h
  | _ => .error "Selected block does not expose transaction hashes"

/-- The logs bundle (`LogsContext` in the source); `request` carries the
`blockHash` member of the filter `{ blockHash: hash }`. -/
structure LogsContext where
  blockNumber : Json
  request : Json
  logs : List Json
  deriving DecidableEq

/-- `safeGetLogs` (source lines 374-384): any logs-query failure is
swallowed into an empty result, and a non-array success is treated as
empty as well. -/
def safeGetLogs (getLogs : Json → Except String Json) (filter : Json) : List Json :=
  match getLogs filter with
  | .ok (.arr l) => l
  | .ok _ => []
  | .error _ => []

/-- Whether one iteration of the logs backward walk hits: the fetched
block must have a truthy `hash` and its logs query must come back
non-empty (a failed block fetch propagates instead). -/
def logsStepHit (getLogs : Json → Except String Json) (r : Except String Json) : Bool :=
  match r with
  | .error _ => false
  | .ok b =>
      jsOptTruthy (jsonGet b "hash") &&
        !(safeGetLogs getLogs ((jsonGet b "hash").getD .null)).isEmpty

/-- The bounded backward walk of `findLogsCandidate` (source lines
345-369): blocks without a truthy hash only consume an attempt, logs
queries run through `safeGetLogs`, and both exhaustion and a negative
height yield `undefined` (`.ok none`) rather than an error. -/
def findLogsLoop (getBlock : Int → Except String Json) (getLogs : Json → Except String Json) :
    Int → Nat → Except String (Option LogsContext)
  | _, 0 => .ok none
  | current, fuel + 1 =>
      if current < 0 then .ok none
      else
        match getBlock current with
        | .error e => .error e
        | .ok nextBlock =>
            if jsOptTruthy (jsonGet nextBlock "hash") then
              let hv := (jsonGet nextBlock "hash").getD .null
              let nextLogs := safeGetLogs getLogs hv
              if nextLogs.isEmpty then findLogsLoop getBlock getLogs (current - 1) fuel
              else
                .ok (some ⟨jsOrElse (jsonGet nextBlock "number") (.str (candidateHex current)),
                  hv, nextLogs⟩)
            else findLogsLoop getBlock getLogs (current - 1) fuel

/-- `findLogsCandidate` (source lines 329-372): a block without a
string-typed, truthy hash yields no logs context at once; otherwise the
chosen block's hash is queried first, and only on an empty result does
the backward walk start one block below the fallback height. -/
def findLogsCandidate (getBlock : Int → Except String Json)
    (getLogs : Json → Except String Json) (block : Json) (fallbackNumber : String) :
    Except String (Option LogsContext) :=
  match jsonGet block "hash" with
  | some (.str h) =>
      if h = "" then .ok none
      else
        let logs := safeGetLogs getLogs (.str h)
        if logs.isEmpty then
          match jsBigInt? fallbackNumber with
          | none => .error ("Invalid hex value: " ++ fallbackNumber)
          | some n => findLogsLoop getBlock getLogs (n - 1) 64
        else .ok (some ⟨jsOrElse (jsonGet block "number") (.str fallbackNumber), .str h, logs⟩)
  | _ => .ok none

/-- Whether a fetch came back without throwing. -/
def fetchOk : Except String Json → Bool
  | .ok _ => true
  | .error _ => false

/-- Six-block feed for the C7 witness: only height 2 — the fourth block
scanning backward from 5 — has a non-empty transaction list. -/
def c7Feed : Int → Except String Json := fun i =>
  if i = 2 then
    .ok (.obj [("number", .str "0x2"), ("hash", .str "0xabc"),
      ("transactions", .arr [.str "0xt1", .str "0xt2"])])
  else .ok (.obj [("number", .str "0xn"), ("transactions", .arr [])])

/-- Feed for the C7 exhaustion witness: every block is transaction-free. -/
def c7EmptyFeed : Int → Except String Json := fun _ =>
  .ok (.obj [("transactions", .arr [])])

/-- Logs feed for the C8 witness: only the hash "0xhash1" yields a
non-empty logs answer; everything else is rejected by the endpoint. -/
def c8Logs : Json → Except String Json := fun f =>
  if f = .str "0xhash1" then .ok (.arr [.obj [("address", .str "0xa")]])
  else .error "no logs"

/-- Logs feed for the C8 witness that always fails. -/
def c8FailLogs : Json → Except String Json := fun _ => .error "pruned"

/-- Chosen block for the C8 witness. -/
def c8Block : Json :=
  .obj [("number", .str "0x9"), ("hash", .str "0xhash1"),
    ("transactions", .arr [.str "0xt"])]

/-- Block feed for the C8 witness backward walk. -/
def c8Blocks : Int → Except String Json := fun _ =>
  .ok (.obj [("number", .str "0xn"), ("hash", .str "0xh")])

theorem findBWTLoop_succ (getBlock : Int → Except String Json) (current : Int) (fuel : Nat) :
    findBWTLoop getBlock current (fuel + 1) =
      (if current < 0 then .ok none
      else
        match getBlock current with
        | .error e => .error e
        | .ok block =>
            if jsTruthy block && !(blockTxs block).isEmpty then
              .ok (some (jsOrElse (jsonGet block "number") (.str (candidateHex current)), block))
            else findBWTLoop getBlock (current - 1) fuel) := rfl

/-! ## Shared lemmas -/

theorem getq_append_left {α : Type} (l l2 : List α) (r : Nat) (h : r < l.length) :
    (l ++ l2).get? r = l.get? r := by
  induction l generalizing r with
  | nil => simp at h
  | cons x xs ih =>
      cases r with
      | zero => rfl
      | succ m => simpa using ih m (by simpa using Nat.lt_of_succ_lt_succ h)

theorem getq_set_ne {α : Type} (l : List α) (i j : Nat) (v : α) (h : i ≠ j) :
    (l.set i v).get? j = l.get? j := by
  induction l generalizing i j with
  | nil => simp
  | cons x xs ih =>
      cases i with
      | zero =>
          cases j with
          | zero => exact absurd rfl h
          | succ m => rfl
      | succ n =>
          cases j with
          | zero => rfl
          | succ m => simpa [List.set] using ih n m (fun hh => h (by rw [hh]))

theorem spliceRemove_length (xs : List Json) (i : Nat) (h : i < xs.length) :
    (spliceRemove xs i).length = xs.length - 1 := by
  induction xs generalizing i with
  | nil => simp at h
  | cons x xs ih =>
      cases i with
      | zero => simp [spliceRemove]
      | succ n =>
          have hn : n < xs.length := Nat.lt_of_succ_lt_succ (by simpa using h)
          have hlen : 0 < xs.length := Nat.lt_of_le_of_lt (Nat.zero_le n) hn
          simp [spliceRemove, ih n hn]
          omega

theorem spliceRemove_get_lt (xs : List Json) (i j : Nat) (h : j < i) :
    (spliceRemove xs i).get? j = xs.get? j := by
  induction xs generalizing i j with
  | nil => simp [spliceRemove]
  | cons x xs ih =>
      cases i with
      | zero => omega
      | succ n =>
          cases j with
          | zero => simp [spliceRemove]
          | succ m => simpa [spliceRemove] using ih n m (by omega)

theorem spliceRemove_get_ge (xs : List Json) (i j : Nat) (h : i ≤ j) :
    (spliceRemove xs i).get? j = xs.get? (j + 1) := by
  induction xs generalizing i j with
  | nil => simp [spliceRemove]
  | cons x xs ih =>
      cases i with
      | zero => simp [spliceRemove]
      | succ n =>
          cases j with
          | zero => omega
          | succ m => simpa [spliceRemove] using ih n m (by omega)


theorem lookupField_removeField_self (fs : List (String × Json)) (k : String) :
    lookupField (removeField fs k) k = none := by
  induction fs with
  | nil => rfl
  | cons p rest ih =>
      rcases p with ⟨k1, v1⟩
      by_cases h : k1 = k
      · have hre : removeField ((k1, v1) :: rest) k = removeField rest k := by
          simp [removeField, List.filter_cons, h]
        rw [hre]; exact ih
      · have hre : removeField ((k1, v1) :: rest) k = (k1, v1) :: removeField rest k := by
          simp [removeField, List.filter_cons, h]
        rw [hre]
        simp [lookupField, h, ih]

theorem lookupField_removeField_ne (fs : List (String × Json)) (k k2 : String) (h : k2 ≠ k) :
    lookupField (removeField fs k) k2 = lookupField fs k2 := by
  induction fs with
  | nil => rfl
  | cons p rest ih =>
      rcases p with ⟨k1, v1⟩
      by_cases h1 : k1 = k
      · have hre : removeField ((k1, v1) :: rest) k = removeField rest k := by
          simp [removeField, List.filter_cons, h1]
        have h12 : k1 ≠ k2 := fun hh => h (hh ▸ h1)
        rw [hre, ih]
        simp [lookupField, h12]
      · have hre : removeField ((k1, v1) :: rest) k = (k1, v1) :: removeField rest k := by
          simp [removeField, List.filter_cons, h1]
        rw [hre]
        simp [lookupField, ih]

theorem lookupField_setField_self (m : List (String × Json)) (k : String) (v : Json) :
    lookupField (setField m k v) k = some v := by
  induction m with
  | nil => simp [setField, lookupField]
  | cons p rest ih =>
      rcases p with ⟨k1, v1⟩
      by_cases h : k1 = k
      · simp [setField, h, lookupField]
      · simp [setField, h, lookupField, ih]

theorem lookupField_setField_ne (m : List (String × Json)) (k k2 : String) (v : Json)
    (h : k2 ≠ k) : lookupField (setField m k v) k2 = lookupField m k2 := by
  have hkk2 : k ≠ k2 := fun hh => h (Eq.symm hh)
  induction m with
  | nil => simp [setField, lookupField, hkk2]
  | cons p rest ih =>
      rcases p with ⟨k1, v1⟩
      by_cases h1 : k1 = k
      · subst h1
        simp [setField, lookupField, hkk2]
      · simp [setField, h1, lookupField, ih]

theorem lookupField_eq_none_of_not_mem (mf : List (String × Json)) (k : String)
    (h : k ∉ mf.map Prod.fst) : lookupField mf k = none := by
  induction mf with
  | nil => rfl
  | cons p rest ih =>
      rcases p with ⟨k1, v1⟩
      rw [List.map_cons] at h
      have h1 : k ≠ k1 := fun hh => h (hh ▸ List.mem_cons_self k1 _)
      have h2 : k ∉ rest.map Prod.fst := fun hh => h (List.mem_cons_of_mem _ hh)
      simp [lookupField, Ne.symm h1, ih h2]

theorem spreadMerge_cons (base : List (String × Json)) (k0 : String) (v0 : Json)
    (rest : List (String × Json)) :
    spreadMerge base ((k0, v0) :: rest) = spreadMerge (setField base k0 v0) rest := rfl

theorem lookupField_spreadMerge_none (base mf : List (String × Json)) (k : String)
    (h : lookupField mf k = none) :
    lookupField (spreadMerge base mf) k = lookupField base k := by
  induction mf generalizing base with
  | nil => rfl
  | cons p rest ih =>
      rcases p with ⟨k0, v0⟩
      by_cases hk : k0 = k
      · subst hk; simp [lookupField] at h
      · have hr : lookupField rest k = none := by simpa [lookupField, hk] using h
        rw [spreadMerge_cons, ih (setField base k0 v0) hr,
          lookupField_setField_ne base k0 k v0 (fun hh => hk (Eq.symm hh))]

theorem lookupField_spreadMerge_some (base mf : List (String × Json)) (k : String) (v : Json)
    (hnd : (mf.map Prod.fst).Nodup) (h : lookupField mf k = some v) :
    lookupField (spreadMerge base mf) k = some v := by
  induction mf generalizing base with
  | nil => simp [lookupField] at h
  | cons p rest ih =>
      rcases p with ⟨k0, v0⟩
      rw [List.map_cons, List.nodup_cons] at hnd
      by_cases hk : k0 = k
      · subst hk
        have hv : v0 = v := by simpa [lookupField] using h
        have hnone : lookupField rest k0 = none :=
          lookupField_eq_none_of_not_mem rest k0 hnd.1
        rw [spreadMerge_cons, lookupField_spreadMerge_none _ _ _ hnone,
          lookupField_setField_self, hv]
      · have hr : lookupField rest k = some v := by simpa [lookupField, hk] using h
        rw [spreadMerge_cons]
        exact ih (setField base k0 v0) hnd.2 hr

/-! ## Claim C1 — deep-copy isolation of the apply path -/

/-- Claim C1 counterexample: `applyJsonPathOverlay` itself performs no
deep copy — applied to the document behind reference 0 with a fully
resolvable action list, it succeeds (error component `none`), returns the
very same reference 0, and the tree behind that original reference is no
longer the caller's tree. -/
theorem c1_in_place_counterexample :
    (applyJsonPathOverlay ⟨[Json.obj [("a", Json.num 1)]]⟩ 0
        [.set [.child "a"] (.num 2)]).2.2 = none ∧
    (applyJsonPathOverlay ⟨[Json.obj [("a", Json.num 1)]]⟩ 0
        [.set [.child "a"] (.num 2)]).2.1 = 0 ∧
    (applyJsonPathOverlay ⟨[Json.obj [("a", Json.num 1)]]⟩ 0
        [.set [.child "a"] (.num 2)]).1.docs.get? 0 ≠
      some (Json.obj [("a", Json.num 1)]) := by decide

/-- Claim C1 (amended): the deep-copy isolation belongs to the apply path
of `applyExampleOverlays`, not to `applyJsonPathOverlay`: for a non-empty
action list the returned reference is the fresh clone (`st.docs.length`,
distinct from `r`) and the tree behind the caller's reference `r` is left
unmodified, while an empty action list short-circuits to the original
reference itself. -/
theorem c1_apply_overlays_isolation (st : Store) (r : Nat) (actions : List OverlayAction)
    (hr : r < st.docs.length) (hne : actions ≠ []) :
    (applyExampleOverlaysApply st r actions).2.1 = st.docs.length ∧
    (applyExampleOverlaysApply st r actions).2.1 ≠ r ∧
    (applyExampleOverlaysApply st r actions).1.docs.get? r = st.docs.get? r ∧
    applyExampleOverlaysApply st r [] = (st, r, none) := by
  have hemp : actions.isEmpty = false := by
    cases actions with
    | nil => exact absurd rfl hne
    | cons a t => rfl
  have hlr : st.docs.length ≠ r := Ne.symm (Nat.ne_of_lt hr)
  have key : applyExampleOverlaysApply st r actions =
      applyJsonPathOverlay ⟨st.docs ++ [st.docs.getD r Json.null]⟩ st.docs.length actions := by
    unfold applyExampleOverlaysApply
    rw [hemp]
    simp
  have key2 : applyJsonPathOverlay ⟨st.docs ++ [st.docs.getD r Json.null]⟩
      st.docs.length actions =
      (⟨(st.docs ++ [st.docs.getD r Json.null]).set st.docs.length
          (applyActions ((st.docs ++ [st.docs.getD r Json.null]).getD st.docs.length
            Json.null) actions).1⟩,
        st.docs.length,
        (applyActions ((st.docs ++ [st.docs.getD r Json.null]).getD st.docs.length
          Json.null) actions).2) := by
    unfold applyJsonPathOverlay
    rcases hap : applyActions
        ((st.docs ++ [st.docs.getD r Json.null]).getD st.docs.length Json.null) actions
      with ⟨doc2, err⟩
    simp at hap
    simp [hap]
  refine ⟨?_, ?_, ?_, rfl⟩
  · rw [key, key2]
  · rw [key, key2]
    exact hlr
  · rw [key, key2]
    show ((st.docs ++ [st.docs.getD r Json.null]).set st.docs.length _).get? r =
      st.docs.get? r
    rw [getq_set_ne _ _ _ _ hlr, getq_append_left _ _ _ hr]

/-- Claim C1 witness: the amended isolation statement at a concrete
one-document store with one resolvable `set` action. -/
theorem c1_apply_overlays_isolation_witness :
    (applyExampleOverlaysApply ⟨[Json.obj [("a", Json.num 1)]]⟩ 0
        [.set [.child "a"] (.num 2)]).2.1 = 1 ∧
    (applyExampleOverlaysApply ⟨[Json.obj [("a", Json.num 1)]]⟩ 0
        [.set [.child "a"] (.num 2)]).2.1 ≠ 0 ∧
    (applyExampleOverlaysApply ⟨[Json.obj [("a", Json.num 1)]]⟩ 0
        [.set [.child "a"] (.num 2)]).1.docs.get? 0 =
      (⟨[Json.obj [("a", Json.num 1)]]⟩ : Store).docs.get? 0 ∧
    applyExampleOverlaysApply ⟨[Json.obj [("a", Json.num 1)]]⟩ 0 [] =
      (⟨[Json.obj [("a", Json.num 1)]]⟩, 0, none) :=
  c1_apply_overlays_isolation ⟨[Json.obj [("a", Json.num 1)]]⟩ 0
    [.set [.child "a"] (.num 2)] (by decide) (by decide)

/-! ## Claim C4 — fail-fast on unmatched targets -/

/-- Claim C4: when a prefix of the action list applies cleanly and the
next action's target matches zero locations, the whole apply call fails
with the unmatched-path error, the document state is exactly the state
after the prefix (earlier actions fully applied, no rollback), and the
result does not depend on the actions after the failing one (they are
never attempted). -/
theorem c4_fail_fast (doc d1 : Json) (pre post : List OverlayAction) (bad : OverlayAction)
    (hpre : applyActions doc pre = (d1, none))
    (hbad : evalPath d1 bad.target = []) :
    applyActions doc (pre ++ bad :: post) = (d1, some (.noMatch bad.target)) := by
  induction pre generalizing doc with
  | nil =>
      have hd : doc = d1 := by
        have := congrArg Prod.fst hpre
        simpa [applyActions] using this
      subst hd
      simp [applyActions, selectNodes, hbad]
  | cons a rest ih =>
      rw [List.cons_append]
      cases hsel : selectNodes doc a.target with
      | error e => simp [applyActions, hsel] at hpre
      | ok ms =>
          rcases hm : applyMatches doc ms a with ⟨doc2, err2⟩
          cases err2 with
          | some e => simp [applyActions, hsel, hm] at hpre
          | none =>
              have hpre2 : applyActions doc2 rest = (d1, none) := by
                simpa [applyActions, hsel, hm] using hpre
              simpa [applyActions, hsel, hm] using ih doc2 hpre2

/-- Claim C4 witness: a concrete document where the first action applies,
the second action's target is unmatched, and a third action follows; the
call fails with the unmatched-path error in the state left by the first
action alone. -/
theorem c4_fail_fast_witness :
    applyActions (Json.obj [("a", Json.num 1), ("b", Json.num 2)])
        ([OverlayAction.set [.child "a"] (.num 10)] ++
          OverlayAction.remove [.child "zz"] ::
            [OverlayAction.set [.child "b"] (.num 20)]) =
      (Json.obj [("a", Json.num 10), ("b", Json.num 2)],
        some (.noMatch [.child "zz"])) :=
  c4_fail_fast (Json.obj [("a", Json.num 1), ("b", Json.num 2)])
    (Json.obj [("a", Json.num 10), ("b", Json.num 2)])
    [OverlayAction.set [.child "a"] (.num 10)]
    [OverlayAction.set [.child "b"] (.num 20)]
    (OverlayAction.remove [.child "zz"]) (by decide) (by decide)

/-! ## Claim C5 — remove semantics -/

/-- Claim C5: a `remove` action on an array parent of length N splices
the matched index out (length N−1, earlier elements unchanged, later
elements shifted down by one), and on an object parent deletes exactly
the matched key. -/
theorem c5_remove_semantics (xs : List Json) (i : Nat) (t : JPath)
    (fs : List (String × Json)) (k k2 : String)
    (hi : i < xs.length) (hk2 : k2 ≠ k) :
    (mutateParent (.arr xs) (.idx i) (.remove t) = .ok (.arr (spliceRemove xs i)) ∧
      (spliceRemove xs i).length = xs.length - 1 ∧
      (∀ j, j < i → (spliceRemove xs i).get? j = xs.get? j) ∧
      (∀ j, i ≤ j → (spliceRemove xs i).get? j = xs.get? (j + 1))) ∧
    (mutateParent (.obj fs) (.key k) (.remove t) = .ok (.obj (removeField fs k)) ∧
      lookupField (removeField fs k) k = none ∧
      lookupField (removeField fs k) k2 = lookupField fs k2) :=
  ⟨⟨rfl, spliceRemove_length xs i hi, fun j hj => spliceRemove_get_lt xs i j hj,
      fun j hj => spliceRemove_get_ge xs i j hj⟩,
    rfl, lookupField_removeField_self fs k, lookupField_removeField_ne fs k k2 hk2⟩

/-- Claim C5 witness: remove index 1 from a 3-element array and remove
key `x` from a 2-field object. -/
theorem c5_remove_semantics_witness :
    (mutateParent (.arr [Json.num 0, Json.num 1, Json.num 2]) (.idx 1) (.remove []) =
        .ok (.arr (spliceRemove [Json.num 0, Json.num 1, Json.num 2] 1)) ∧
      (spliceRemove [Json.num 0, Json.num 1, Json.num 2] 1).length = 3 - 1 ∧
      (∀ j, j < 1 → (spliceRemove [Json.num 0, Json.num 1, Json.num 2] 1).get? j =
        [Json.num 0, Json.num 1, Json.num 2].get? j) ∧
      (∀ j, 1 ≤ j → (spliceRemove [Json.num 0, Json.num 1, Json.num 2] 1).get? j =
        [Json.num 0, Json.num 1, Json.num 2].get? (j + 1))) ∧
    (mutateParent (.obj [("x", Json.num 1), ("y", Json.num 2)]) (.key "x") (.remove []) =
        .ok (.obj (removeField [("x", Json.num 1), ("y", Json.num 2)] "x")) ∧
      lookupField (removeField [("x", Json.num 1), ("y", Json.num 2)] "x") "x" = none ∧
      lookupField (removeField [("x", Json.num 1), ("y", Json.num 2)] "x") "y" =
        lookupField [("x", Json.num 1), ("y", Json.num 2)] "y") :=
  c5_remove_semantics [Json.num 0, Json.num 1, Json.num 2] 1 []
    [("x", Json.num 1), ("y", Json.num 2)] "x" "y" (by decide) (by decide)

/-! ## Claim C3 — merge semantics -/

/-- Claim C3 counterexample: the merge branch does not require the
current value at the slot to be an object or absent — a string current
value is silently discarded (treated as absent) and the merge succeeds
with just the merge fields, instead of failing. -/
theorem c3_merge_non_object_counterexample :
    mutateParent (.obj [("x", .str "hello")]) (.key "x")
        (.merge [.child "x"] [("a", .num 1)]) =
      .ok (.obj [("x", .obj [("a", .num 1)])]) := by decide

/-- Claim C3 (amended): a merge into an array parent fails with the
merge-into-array error; on an object parent whose current slot value is
an object, the slot becomes a new object agreeing with the merge fields
on every key they name and with the existing object on every other key
(shallow union, merge fields winning); a current value that is not
object-like (absent, `null`, or a primitive — anything whose spread base
is empty) is not rejected but treated as absent, the slot becoming the
merge fields alone. -/
theorem c3_merge_semantics :
    (∀ (xs : List Json) (key : JKey) (t : JPath) (mf : List (String × Json)),
        mutateParent (.arr xs) key (.merge t mf) = .error (.mergeIntoArray t)) ∧
    (∀ (fs : List (String × Json)) (k : String) (t : JPath)
        (mf cur : List (String × Json)),
        lookupField fs k = some (.obj cur) → (mf.map Prod.fst).Nodup →
        mutateParent (.obj fs) (.key k) (.merge t mf) =
          .ok (.obj (setField fs k (.obj (spreadMerge cur mf)))) ∧
        (∀ k2 v, lookupField mf k2 = some v →
          lookupField (spreadMerge cur mf) k2 = some v) ∧
        (∀ k2, lookupField mf k2 = none →
          lookupField (spreadMerge cur mf) k2 = lookupField cur k2)) ∧
    (∀ (fs : List (String × Json)) (k : String) (t : JPath)
        (mf : List (String × Json)),
        currentSpreadBase (lookupField fs k) = [] →
        mutateParent (.obj fs) (.key k) (.merge t mf) =
          .ok (.obj (setField fs k (.obj (spreadMerge [] mf)))) ∧
        (∀ k2 v, (mf.map Prod.fst).Nodup → lookupField mf k2 = some v →
          lookupField (spreadMerge [] mf) k2 = some v) ∧
        (∀ k2, lookupField mf k2 = none → lookupField (spreadMerge [] mf) k2 = none)) := by
  refine ⟨fun xs key t mf => rfl, ?_, ?_⟩
  · intro fs k t mf cur hcur hnd
    refine ⟨?_, ?_, ?_⟩
    · have hdef : mutateParent (.obj fs) (.key k) (.merge t mf) =
          .ok (.obj (setField fs k
            (.obj (spreadMerge (currentSpreadBase (lookupField fs k)) mf)))) := rfl
      rw [hdef, hcur]
      rfl
    · exact fun k2 v hv => lookupField_spreadMerge_some cur mf k2 v hnd hv
    · exact fun k2 hn => lookupField_spreadMerge_none cur mf k2 hn
  · intro fs k t mf hbase
    refine ⟨?_, ?_, ?_⟩
    · have hdef : mutateParent (.obj fs) (.key k) (.merge t mf) =
          .ok (.obj (setField fs k
            (.obj (spreadMerge (currentSpreadBase (lookupField fs k)) mf)))) := rfl
      rw [hdef, hbase]
    · exact fun k2 v hnd hv => lookupField_spreadMerge_some [] mf k2 v hnd hv
    · exact fun k2 hn => lookupField_spreadMerge_none [] mf k2 hn

/-- Claim C3 witness: the amended merge statement at concrete inputs —
an array parent, an object parent with an object current value (key `ov`
overwritten, key `keep` preserved), and an object parent with a primitive
current value. -/
theorem c3_merge_semantics_witness :
    mutateParent (.arr [Json.null]) (.idx 0) (.merge [] [("a", Json.num 1)]) =
      .error (.mergeIntoArray []) ∧
    mutateParent (.obj [("m", .obj [("keep", Json.num 1), ("ov", Json.num 2)])]) (.key "m")
        (.merge [] [("ov", Json.num 3)]) =
      .ok (.obj (setField [("m", .obj [("keep", Json.num 1), ("ov", Json.num 2)])] "m"
        (.obj (spreadMerge [("keep", Json.num 1), ("ov", Json.num 2)]
          [("ov", Json.num 3)])))) ∧
    lookupField (spreadMerge [("keep", Json.num 1), ("ov", Json.num 2)]
      [("ov", Json.num 3)]) "ov" = some (Json.num 3) ∧
    lookupField (spreadMerge [("keep", Json.num 1), ("ov", Json.num 2)]
        [("ov", Json.num 3)]) "keep" =
      lookupField [("keep", Json.num 1), ("ov", Json.num 2)] "keep" ∧
    mutateParent (.obj [("m", .str "prim")]) (.key "m") (.merge [] [("a", Json.num 1)]) =
      .ok (.obj (setField [("m", .str "prim")] "m" (.obj (spreadMerge [] [("a", Json.num 1)])))) :=
  have h2 := c3_merge_semantics.2.1 [("m", .obj [("keep", Json.num 1), ("ov", Json.num 2)])]
    "m" [] [("ov", Json.num 3)] [("keep", Json.num 1), ("ov", Json.num 2)]
    (by decide) (by decide)
  have h3 := c3_merge_semantics.2.2 [("m", .str "prim")] "m" [] [("a", Json.num 1)] (by decide)
  ⟨c3_merge_semantics.1 [Json.null] (.idx 0) [] [("a", Json.num 1)],
    h2.1, h2.2.1 "ov" (Json.num 3) (by decide), h2.2.2 "keep" (by decide), h3.1⟩

/-! ## Claim C2 — chain-id resolution failure handling -/

/-- Claim C2 counterexample: on a failed chain-id query the resolver does
not return the string "unknown" — it returns the absent value
(`undefined`, modelled `none`). -/
theorem c2_returns_undefined_counterexample :
    resolveOverlayChainId (some "https://rpc.example")
        ⟨false, 500, "Internal Server Error", ⟨none, none⟩⟩ = none ∧
    resolveOverlayChainId (some "https://rpc.example")
        ⟨false, 500, "Internal Server Error", ⟨none, none⟩⟩ ≠ some "unknown" := by decide

/-- Claim C2 (amended): on any failure of the chain-id query the resolver
logs and returns the absent value `undefined` (`none`) instead of
propagating the error (and instead of any sentinel string such as
"unknown"), and the caller consequently collects only the global overlay
actions. -/
theorem c2_failure_global_fallback (url : String) (resp : HttpResponse) (e : String)
    (hfail : jsonRpcRequest resp = .error e) :
    resolveOverlayChainId (some url) resp = none ∧
    (∀ g ca, collectOverlayActions g ca (resolveOverlayChainId (some url) resp) = g) := by
  have hres : resolveOverlayChainId (some url) resp = none := by
    unfold resolveOverlayChainId
    by_cases hu : url = ""
    · simp [hu]
    · simp [hu, hfail]
  exact ⟨hres, fun g ca => by simp [collectOverlayActions, hres]⟩

/-- Claim C2 witness: a concrete endpoint whose chain-id query comes back
as an RPC error envelope; the resolver yields `none` and the collected
actions are exactly the global ones. -/
theorem c2_failure_global_fallback_witness :
    resolveOverlayChainId (some "https://rpc.example")
        ⟨true, 200, "OK", ⟨none, some ⟨-32000, "oops", none⟩⟩⟩ = none ∧
    collectOverlayActions [OverlayAction.remove []]
        (fun _ => [OverlayAction.remove [.child "x"]])
        (resolveOverlayChainId (some "https://rpc.example")
          ⟨true, 200, "OK", ⟨none, some ⟨-32000, "oops", none⟩⟩⟩) =
      [OverlayAction.remove []] :=
  have h := c2_failure_global_fallback "https://rpc.example"
    ⟨true, 200, "OK", ⟨none, some ⟨-32000, "oops", none⟩⟩⟩
    "RPC error (-32000) oops" (by decide)
  ⟨h.1, h.2 [OverlayAction.remove []] (fun _ => [OverlayAction.remove [.child "x"]])⟩

/-! ## Claim C6 — overlay loader on missing directories -/

/-- Claim C6: loading overlay actions from a non-existent directory
(readdir ENOENT) yields an empty sequence without raising, in either scan
mode, while any other filesystem error propagates to the caller. -/
theorem c6_missing_dir_empty (recursive : Bool) (code : String) :
    loadOverlayActions .missing recursive = .ok [] ∧
    loadOverlayActions (.errored code) recursive = .error code :=
  ⟨rfl, rfl⟩

/-! ## Claim C9 — chain-id normalization -/

/-- Claim C9: normalization maps the decimal string "1" to "1" and the
hexadecimal string "0xaa36a7" to the decimal string "11155111"; any input
whose trimmed form the BigInt conversion rejects is returned trimmed
as-is; an input that trims to empty is an error. -/
theorem c9_normalize_chain_id :
    normalizeChainId "1" = .ok "1" ∧
    normalizeChainId "0xaa36a7" = .ok "11155111" ∧
    (∀ s, jsBigIntChars (jsTrim s).data = none → normalizeChainId s = .ok (jsTrim s)) ∧
    (∀ s, jsTrim s = "" →
      normalizeChainId s = .error "Chain ID string cannot be empty") := by
  refine ⟨by decide, by decide, ?_, ?_⟩
  · intro s hn
    have hne : jsTrim s ≠ "" := by
      intro hh
      rw [hh] at hn
      have hz : jsBigIntChars ("" : String).data = some 0 := rfl
      rw [hz] at hn
      exact Option.noConfusion hn
    unfold normalizeChainId
    simp [hne, hn]
  · intro s he
    unfold normalizeChainId
    simp [he]

/-- Claim C9 witness: a non-convertible input is returned trimmed, and a
whitespace-only input is rejected. -/
theorem c9_normalize_chain_id_witness :
    normalizeChainId "bogus!" = .ok (jsTrim "bogus!") ∧
    normalizeChainId " \t " = .error "Chain ID string cannot be empty" :=
  ⟨c9_normalize_chain_id.2.2.1 "bogus!" (by decide),
    c9_normalize_chain_id.2.2.2 " \t " (by decide)⟩

/-! ## Claim C10 — missing result is an error -/

/-- Claim C10: a 2xx JSON-RPC exchange whose payload carries neither an
error member nor a result member is rejected by `jsonRpcRequest` —
success requires a present result, not merely the absence of an error
envelope. -/
theorem c10_missing_result_rejected (resp : HttpResponse)
    (hok : resp.ok = true) (herr : resp.payload.error = none)
    (hres : resp.payload.result = none) :
    jsonRpcRequest resp = .error "RPC response missing result" := by
  unfold jsonRpcRequest
  simp [hok, herr, hres]

/-- Claim C10 witness: the concrete 200-OK response with an empty
payload. -/
theorem c10_missing_result_rejected_witness :
    jsonRpcRequest ⟨true, 200, "OK", ⟨none, none⟩⟩ =
      .error "RPC response missing result" :=
  c10_missing_result_rejected ⟨true, 200, "OK", ⟨none, none⟩⟩ rfl rfl rfl

/-! ## Claims C7 and C8 — bounded backward searches -/


theorem findBWTLoop_step (getBlock : Int → Except String Json) (current : Int) (fuel : Nat)
    (hc : 0 ≤ current) (hok : fetchOk (getBlock current) = true)
    (hmiss : blockHit (getBlock current) = false) :
    findBWTLoop getBlock current (fuel + 1) = findBWTLoop getBlock (current - 1) fuel := by
  cases hgb : getBlock current with
  | error e => rw [hgb] at hok; exact absurd hok (by simp [fetchOk])
  | ok b =>
      have hcond : (jsTruthy b && !(blockTxs b).isEmpty) = false := by
        rw [hgb] at hmiss
        simpa [blockHit] using hmiss
      rw [findBWTLoop_succ, if_neg (not_lt.mpr hc), hgb]
      simp [hcond]

theorem findBWTLoop_hit (getBlock : Int → Except String Json) (current : Int) (fuel : Nat)
    (hc : 0 ≤ current) (hhit : blockHit (getBlock current) = true) :
    ∃ b, getBlock current = .ok b ∧
      findBWTLoop getBlock current (fuel + 1) =
        .ok (some (jsOrElse (jsonGet b "number") (.str (candidateHex current)), b)) := by
  cases hgb : getBlock current with
  | error e => rw [hgb] at hhit; simp [blockHit] at hhit
  | ok b =>
      refine ⟨b, rfl, ?_⟩
      have hcond : (jsTruthy b && !(blockTxs b).isEmpty) = true := by
        rw [hgb] at hhit
        simpa [blockHit] using hhit
      rw [findBWTLoop_succ, if_neg (not_lt.mpr hc), hgb]
      simp [hcond]

theorem findBWTLoop_first_hit (getBlock : Int → Except String Json) (k : Nat) :
    ∀ (start : Int) (fuel : Nat), k < fuel → 0 ≤ start - k →
    (∀ j : Nat, j < k →
      fetchOk (getBlock (start - j)) = true ∧ blockHit (getBlock (start - j)) = false) →
    blockHit (getBlock (start - k)) = true →
    ∃ b, getBlock (start - k) = .ok b ∧
      findBWTLoop getBlock start fuel =
        .ok (some (jsOrElse (jsonGet b "number") (.str (candidateHex (start - k))), b)) := by
  induction k with
  | zero =>
      intro start fuel hf hs hmiss hhit
      obtain ⟨fuel2, rfl⟩ : ∃ f, fuel = f + 1 := ⟨fuel - 1, by omega⟩
      simp only [Nat.cast_zero, sub_zero] at hs hhit ⊢
      exact findBWTLoop_hit getBlock start fuel2 hs hhit
  | succ n ih =>
      intro start fuel hf hs hmiss hhit
      obtain ⟨fuel2, rfl⟩ : ∃ f, fuel = f + 1 := ⟨fuel - 1, by omega⟩
      have h0 := hmiss 0 (Nat.succ_pos n)
      simp only [Nat.cast_zero, sub_zero] at h0
      have hc : (0:Int) ≤ start := by
        have : (0:Int) ≤ start - ((n:Int) + 1) := by push_cast at hs; exact hs
        omega
      rw [findBWTLoop_step getBlock start fuel2 hc h0.1 h0.2]
      have heq : ∀ j : Nat, (start - 1) - (j:Int) = start - (((j + 1 : Nat)):Int) := by
        intro j; push_cast; ring
      have hs2 : 0 ≤ (start - 1) - (n:Int) := by rw [heq n]; exact hs
      have hmiss2 : ∀ j : Nat, j < n →
          fetchOk (getBlock ((start - 1) - j)) = true ∧
          blockHit (getBlock ((start - 1) - j)) = false := by
        intro j hj
        rw [heq j]
        exact hmiss (j + 1) (by omega)
      have hhit2 : blockHit (getBlock ((start - 1) - (n:Int))) = true := by
        rw [heq n]; exact hhit
      obtain ⟨b, hb, hloop⟩ := ih (start - 1) fuel2 (by omega) hs2 hmiss2 hhit2
      rw [heq n] at hb hloop
      exact ⟨b, hb, hloop⟩

theorem findBWTLoop_exhaust (getBlock : Int → Except String Json) :
    ∀ (fuel : Nat) (start : Int),
    (∀ j : Nat, j < fuel → start - j < 0 ∨
      (fetchOk (getBlock (start - j)) = true ∧ blockHit (getBlock (start - j)) = false)) →
    findBWTLoop getBlock start fuel = .ok none := by
  intro fuel
  induction fuel with
  | zero => intro start h; rfl
  | succ f ih =>
      intro start h
      by_cases hneg : start < 0
      · rw [findBWTLoop_succ, if_pos hneg]
      · have h0 := h 0 (Nat.succ_pos f)
        simp only [Nat.cast_zero, sub_zero] at h0
        rcases h0 with h0 | ⟨hok, hmiss⟩
        · omega
        · rw [findBWTLoop_step getBlock start f (le_of_not_lt hneg) hok hmiss]
          apply ih
          intro j hj
          have hall := h (j + 1) (by omega)
          have heq : start - (((j + 1 : Nat)):Int) = (start - 1) - (j:Int) := by
            push_cast; ring
          rw [heq] at hall
          exact hall

/-- Claim C7: starting from a parsed height, the search walks backward
one block at a time for at most 64 attempts; when the first hit (all
shallower offsets fetched cleanly and missing) lies within the bound, the
returned block is exactly that hit, with its `number` field (or the hex
candidate) and the block itself, and the first string entry of its
transaction list is the designated sample transaction hash; when every
offset within the bound misses (or falls below height 0), the call is a
hard failure. -/
theorem c7_block_search :
    (∀ (getBlock : Int → Except String Json) (startBlock : String) (n : Int) (k : Nat),
      jsBigInt? startBlock = some n → k < 64 → 0 ≤ n - k →
      (∀ j : Nat, j < k →
        fetchOk (getBlock (n - j)) = true ∧ blockHit (getBlock (n - j)) = false) →
      blockHit (getBlock (n - k)) = true →
      ∃ b, getBlock (n - k) = .ok b ∧
        findBlockWithTransactions getBlock startBlock =
          .ok (jsOrElse (jsonGet b "number") (.str (candidateHex (n - k))), b) ∧
        (∀ h rest, blockTxs b = .str h :: rest → extractTransactionHash b = .ok h)) ∧
    (∀ (getBlock : Int → Except String Json) (startBlock : String) (n : Int),
      jsBigInt? startBlock = some n →
      (∀ j : Nat, j < 64 → n - j < 0 ∨
        (fetchOk (getBlock (n - j)) = true ∧ blockHit (getBlock (n - j)) = false)) →
      findBlockWithTransactions getBlock startBlock =
        .error ("Failed to find block with transactions near " ++ startBlock)) := by
  constructor
  · intro getBlock startBlock n k hp hk hs hmiss hhit
    obtain ⟨b, hb, hloop⟩ := findBWTLoop_first_hit getBlock k n 64 hk hs hmiss hhit
    refine ⟨b, hb, ?_, ?_⟩
    · unfold findBlockWithTransactions
      rw [hp]
      dsimp only
      rw [hloop]
    · intro h rest htx
      unfold extractTransactionHash
      rw [htx]
      simp [List.find?, isStrJson]
  · intro getBlock startBlock n hp hall
    unfold findBlockWithTransactions
    rw [hp]
    dsimp only
    rw [findBWTLoop_exhaust getBlock 64 n hall]


/-- Claim C7 witness: on the six-block feed the search started at "0x5"
selects exactly the block at height 2 and its first listed transaction
hash, and on an all-empty feed it fails hard. -/
theorem c7_block_search_witness :
    findBlockWithTransactions c7Feed "0x5" =
      .ok (.str "0x2", .obj [("number", .str "0x2"), ("hash", .str "0xabc"),
        ("transactions", .arr [.str "0xt1", .str "0xt2"])]) ∧
    extractTransactionHash (.obj [("number", .str "0x2"), ("hash", .str "0xabc"),
      ("transactions", .arr [.str "0xt1", .str "0xt2"])]) = .ok "0xt1" ∧
    findBlockWithTransactions c7EmptyFeed "0x7" =
      .error ("Failed to find block with transactions near " ++ "0x7") := by
  obtain ⟨b, hb, hmain, hext⟩ := c7_block_search.1 c7Feed "0x5" 5 3 (by decide) (by decide)
    (by decide) (by decide) (by decide)
  have hbv : b = Json.obj [("number", .str "0x2"), ("hash", .str "0xabc"),
      ("transactions", .arr [.str "0xt1", .str "0xt2"])] := by
    have hcf : c7Feed (5 - ((3:Nat):Int)) =
        .ok (Json.obj [("number", .str "0x2"), ("hash", .str "0xabc"),
          ("transactions", .arr [.str "0xt1", .str "0xt2"])]) := by decide
    rw [hcf] at hb
    exact (Except.ok.inj hb).symm
  subst hbv
  refine ⟨hmain.trans (by decide), hext "0xt1" [Json.str "0xt2"] (by decide),
    c7_block_search.2 c7EmptyFeed "0x7" 7 (by decide) (by decide)⟩

theorem findLogsLoop_succ (getBlock : Int → Except String Json)
    (getLogs : Json → Except String Json) (current : Int) (fuel : Nat) :
    findLogsLoop getBlock getLogs current (fuel + 1) =
      (if current < 0 then .ok none
      else
        match getBlock current with
        | .error e => .error e
        | .ok nextBlock =>
            if jsOptTruthy (jsonGet nextBlock "hash") then
              let hv := (jsonGet nextBlock "hash").getD .null
              let nextLogs := safeGetLogs getLogs hv
              if nextLogs.isEmpty then findLogsLoop getBlock getLogs (current - 1) fuel
              else
                .ok (some ⟨jsOrElse (jsonGet nextBlock "number") (.str (candidateHex current)),
                  hv, nextLogs⟩)
            else findLogsLoop getBlock getLogs (current - 1) fuel) := rfl

theorem findLogsLoop_step (getBlock : Int → Except String Json)
    (getLogs : Json → Except String Json) (current : Int) (fuel : Nat)
    (hc : 0 ≤ current) (hok : fetchOk (getBlock current) = true)
    (hmiss : logsStepHit getLogs (getBlock current) = false) :
    findLogsLoop getBlock getLogs current (fuel + 1) =
      findLogsLoop getBlock getLogs (current - 1) fuel := by
  cases hgb : getBlock current with
  | error e => rw [hgb] at hok; exact absurd hok (by simp [fetchOk])
  | ok b =>
      rw [hgb] at hmiss
      rw [findLogsLoop_succ, if_neg (not_lt.mpr hc), hgb]
      by_cases hh : jsOptTruthy (jsonGet b "hash") = true
      · have hempty : (safeGetLogs getLogs ((jsonGet b "hash").getD .null)).isEmpty = true := by
          simp [logsStepHit, hh] at hmiss
          simpa using hmiss
        simp [hh, hempty]
      · have hfalse : jsOptTruthy (jsonGet b "hash") = false := by simpa using hh
        simp [hfalse]

theorem findLogsLoop_exhaust (getBlock : Int → Except String Json)
    (getLogs : Json → Except String Json) :
    ∀ (fuel : Nat) (start : Int),
    (∀ j : Nat, j < fuel → start - j < 0 ∨
      (fetchOk (getBlock (start - j)) = true ∧
        logsStepHit getLogs (getBlock (start - j)) = false)) →
    findLogsLoop getBlock getLogs start fuel = .ok none := by
  intro fuel
  induction fuel with
  | zero => intro start h; rfl
  | succ f ih =>
      intro start h
      by_cases hneg : start < 0
      · rw [findLogsLoop_succ, if_pos hneg]
      · have h0 := h 0 (Nat.succ_pos f)
        simp only [Nat.cast_zero, sub_zero] at h0
        rcases h0 with h0 | ⟨hok, hmiss⟩
        · omega
        · rw [findLogsLoop_step getBlock getLogs start f (le_of_not_lt hneg) hok hmiss]
          apply ih
          intro j hj
          have hall := h (j + 1) (by omega)
          have heq : start - (((j + 1 : Nat)):Int) = (start - 1) - (j:Int) := by
            push_cast; ring
          rw [heq] at hall
          exact hall

/-- Claim C8: every individual logs-query failure is swallowed by
`safeGetLogs` into zero results (never aborting the search); the chosen
block's hash is queried first, and a non-empty answer is returned at once
without any backward walk; and exhausting the 64-attempt backward walk
(every candidate fetched cleanly but missing) degrades to
no-logs-context (`.ok none`) rather than an error. -/
theorem c8_logs_search :
    (∀ (getLogs : Json → Except String Json) (filter : Json) (e : String),
      getLogs filter = .error e → safeGetLogs getLogs filter = []) ∧
    (∀ (getBlock : Int → Except String Json) (getLogs : Json → Except String Json)
      (block : Json) (fallbackNumber : String) (h : String) (l : List Json),
      jsonGet block "hash" = some (.str h) → h ≠ "" →
      safeGetLogs getLogs (.str h) = l → l ≠ [] →
      findLogsCandidate getBlock getLogs block fallbackNumber =
        .ok (some ⟨jsOrElse (jsonGet block "number") (.str fallbackNumber), .str h, l⟩)) ∧
    (∀ (getBlock : Int → Except String Json) (getLogs : Json → Except String Json)
      (block : Json) (fallbackNumber : String) (h : String) (n : Int),
      jsonGet block "hash" = some (.str h) → h ≠ "" →
      safeGetLogs getLogs (.str h) = [] →
      jsBigInt? fallbackNumber = some n →
      (∀ j : Nat, j < 64 → (n - 1) - j < 0 ∨
        (fetchOk (getBlock ((n - 1) - j)) = true ∧
          logsStepHit getLogs (getBlock ((n - 1) - j)) = false)) →
      findLogsCandidate getBlock getLogs block fallbackNumber = .ok none) := by
  refine ⟨?_, ?_, ?_⟩
  · intro getLogs filter e hf
    unfold safeGetLogs
    rw [hf]
  · intro getBlock getLogs block fallback h l hh hne hlogs hlne
    have hle : l.isEmpty = false := by
      cases l with
      | nil => exact absurd rfl hlne
      | cons a t => rfl
    unfold findLogsCandidate
    rw [hh]
    dsimp only
    rw [if_neg hne, hlogs]
    simp [hle]
  · intro getBlock getLogs block fallback h n hh hne hlogs hp hall
    unfold findLogsCandidate
    rw [hh]
    dsimp only
    rw [if_neg hne, hlogs]
    simp only [List.isEmpty_nil, if_true]
    rw [hp]
    dsimp only
    exact findLogsLoop_exhaust getBlock getLogs 64 (n - 1) hall


/-- Claim C8 witness: a failing logs query yields zero results; the
chosen block's own hash answers first without walking; and with every
logs query failing the whole search degrades to no-logs-context. -/
theorem c8_logs_search_witness :
    safeGetLogs c8FailLogs (.str "x") = [] ∧
    findLogsCandidate c8Blocks c8Logs c8Block "0x9" =
      .ok (some ⟨.str "0x9", .str "0xhash1", [.obj [("address", .str "0xa")]]⟩) ∧
    findLogsCandidate c8Blocks c8FailLogs c8Block "0x9" = .ok none := by
  refine ⟨c8_logs_search.1 c8FailLogs (.str "x") "pruned" (by decide), ?_, ?_⟩
  · exact (c8_logs_search.2.1 c8Blocks c8Logs c8Block "0x9" "0xhash1"
      [.obj [("address", .str "0xa")]] (by decide) (by decide) (by decide)
      (by decide)).trans (by decide)
  · exact c8_logs_search.2.2 c8Blocks c8FailLogs c8Block "0x9" "0xhash1" 9
      (by decide) (by decide) (by decide) (by decide) (by decide)
